import Mathlib

/-!
Shallow embedding of the `ingredients_backend` repository: a pipeline that
extracts dish names from restaurant-menu OCR text and assembles a combined
ingredient list per dish from a recipe-database lookup and model-suggested
additions.

Sources embedded here:
- `src/ingredients_api.py` (older variant): `TextProcessor.clean_ocr_text`,
  `AIEnhancer.enhance_ingredients`, `IngredientProcessor.combine_ingredients`.
- `src/services/spoonacular.py`: `SpoonacularService.find_ingredients_for_dish`
  and `extract_ingredients_from_recipes`.
- `src/services/openai_service.py`: `sanity_check_ingredients`,
  `suggest_additional_ingredients`, `analyze_ocr_text`, `split_dish_name`.
- `src/services/ocr_processor.py`: `OCRProcessor._process_single_dish`,
  `OCRProcessor._combine_ingredients`, `OCRProcessor.process_ocr_text`.
- `src/app.py`: the `/api/process-ocr` route handler.

Modelling conventions:
- Python strings are Lean `String`s; `str.lower()` is modelled as basic-latin
  lowering (`Char.toLower`), which covers the ASCII ingredient data the
  repository manipulates; `str.strip()` drops the ASCII whitespace characters
  Python strips.
- Remote HTTP/model calls are oracles passed in as data: a call either raises
  (`Except.error msg`, modelling a Python exception) or returns its parsed
  JSON payload. Optional JSON keys are `Option` fields, `none` meaning the key
  is absent, so `dict.get(k, d)` is `(field).getD d`.
- Python floats (the confidence values) are modelled as `ℚ`; the confidence
  arithmetic in the source (`min`, `max`, division by 3) is exact for the
  claims considered.
-/

namespace IngredientsBackend

/-! ## Python string primitives -/

/-- The ASCII whitespace characters stripped/collapsed by Python's
`str.strip()` and the regex `\s`. -/
def pySpace (c : Char) : Bool :=
  c == ' ' || c == '\t' || c == '\n' || c == '\r' || c == '\x0b' || c == '\x0c'

/-- `str.strip()` on the underlying character list: drop leading and trailing
whitespace. -/
def stripChars (l : List Char) : List Char :=
  ((l.dropWhile pySpace).reverse.dropWhile pySpace).reverse

/-- Python `str.strip()`. -/
def pyStrip (s : String) : String := ⟨stripChars s.data⟩

/-- Python `str.lower()` (basic-latin lowering, covering the repository's
ASCII ingredient data). -/
def pyLower (s : String) : String := ⟨s.data.map Char.toLower⟩

/-- The idiom `ingredient.lower().strip()` used by both merge operations. -/
def lowerStrip (s : String) : String := pyStrip (pyLower s)

/-! ## The two merge operations -/

namespace OCRProcessor

/-- `OCRProcessor._combine_ingredients` (src/services/ocr_processor.py:157):
every known ingredient is added to the set as `ingredient.lower().strip()`
with no emptiness check; a suggested ingredient is added only when its
`lower().strip()` form is non-empty; the set is returned sorted. -/
def combine_ingredients (known_ingredients suggested_ingredients : List String) :
    List String :=
  List.insertionSort (· ≤ ·)
    ((known_ingredients.map lowerStrip ++
      (suggested_ingredients.map lowerStrip).filter (fun c => c ≠ "")).dedup)

end OCRProcessor

namespace IngredientProcessor

/-- `IngredientProcessor.combine_ingredients` (src/ingredients_api.py:274):
both sources are added to the set as `ingredient.lower().strip()`; empty
strings are removed before sorting. -/
def combine_ingredients (spoonacular_ingredients ai_suggested : List String) :
    List String :=
  List.insertionSort (· ≤ ·)
    ((((spoonacular_ingredients ++ ai_suggested).map lowerStrip).dedup).filter
      (fun ing => ing ≠ ""))

end IngredientProcessor

/-! ## Spoonacular service (src/services/spoonacular.py)

The remote search call is an oracle: `Except.error msg` models an exception
propagating out of the searched/extracted block (caught by
`find_ingredients_for_dish`'s own `try/except`), `Except.ok recipes` the list
of parsed recipe objects. -/

/-- One entry of a recipe's `extendedIngredients` array; `none` models an
absent key. -/
structure RawIngredient where
  name : Option String
  originalName : Option String

/-- One parsed recipe object from the complex-search response. -/
structure Recipe where
  extendedIngredients : Option (List RawIngredient)

namespace SpoonacularService

/-- `SpoonacularService.extract_ingredients_from_recipes`
(src/services/spoonacular.py:75): collect `name` (else `originalName`) of each
extended ingredient, lowercased, into a set; return sorted. -/
def extract_ingredients_from_recipes (recipes : List Recipe) : List String :=
  List.insertionSort (· ≤ ·)
    (((recipes.map (fun r =>
        (r.extendedIngredients.getD []).filterMap (fun ing =>
          match ing.name with
          | some n => some (pyLower n)
          | none => ing.originalName.map pyLower))).flatten).dedup)

/-- The dict returned by `find_ingredients_for_dish`; `recipe_count` and
`confidence` are `Option` because the not-found and exception branches omit
those keys (`confidence` in both, `recipe_count` in the exception branch). -/
structure SpoonResult where
  dish_name : String
  ingredients : List String
  found_recipes : Bool
  recipe_count : Option Nat
  confidence : Option ℚ
  error : Option String

/-- `SpoonacularService.find_ingredients_for_dish`
(src/services/spoonacular.py:92). The search oracle yields either the parsed
recipe list or an exception caught by the surrounding `try/except`. -/
def find_ingredients_for_dish (dish_name : String)
    (search : Except String (List Recipe)) : SpoonResult :=
  match search with
  | .error e =>
      { dish_name := dish_name, ingredients := [], found_recipes := false,
        recipe_count := none, confidence := none, error := some e }
  | .ok recipes =>
      if recipes.isEmpty then
        { dish_name := dish_name, ingredients := [], found_recipes := false,
          recipe_count := some 0, confidence := none, error := none }
      else
        { dish_name := dish_name,
          ingredients := extract_ingredients_from_recipes recipes,
          found_recipes := true,
          recipe_count := some recipes.length,
          confidence := some (min 1 ((recipes.length : ℚ) / 3)),
          error := none }

end SpoonacularService

/-! ## OpenAI service (src/services/openai_service.py)

Each operation's oracle is the outcome of the remote chat-completion call:
`Except.error msg` models an exception (transport failure, malformed JSON),
`Except.ok parsed` the parsed JSON object, whose optional keys are `Option`
fields (`none` = key absent). -/

/-- Parsed JSON of the sanity-check response. -/
structure SanityParsed where
  verified_ingredients : Option (List String)
  removed_ingredients : Option (List String)
  reasoning : Option String

/-- The dict returned by `sanity_check_ingredients`: on success the parsed
`result` is returned unmodified (so keys can be absent); on exception a dict
with `verified_ingredients := ingredients` (fail-open) plus an `error` key. -/
structure SanityResult where
  verified_ingredients : Option (List String)
  removed_ingredients : Option (List String)
  reasoning : Option String
  error : Option String

/-- Parsed JSON of the dish-name simplification response. -/
structure SplitParsed where
  original_name : Option String
  alternative_name : Option String
  reasoning : Option String

/-- Parsed JSON of the additional-ingredient suggestion response. -/
structure SuggestParsed where
  suggested_ingredients : Option (List String)
  reasoning : Option String
  confidence : Option ℚ

/-- The dict returned by `suggest_additional_ingredients`. `hasError` models
the presence of the `error` key, which the orchestrator tests with
`'error' not in additional_result`. -/
structure SuggestResult where
  suggested_ingredients : List String
  reasoning : String
  confidence : ℚ
  hasError : Bool

/-- One dish candidate inside the OCR analysis (`dishes` array element);
`none` models an absent key, read by the orchestrator with
`dish_data.get('name', '')` and `dish_data.get('mentioned_ingredients', [])`. -/
structure DishData where
  name : Option String
  mentioned_ingredients : Option (List String)

/-- The dict returned by `analyze_ocr_text`: on success the parsed model JSON
is returned raw (no validation or clamping); on exception a default with
empty dishes, confidence `0.0`, quality `"poor"` and an `error` key. -/
structure Analysis where
  dishes : Option (List DishData)
  overall_confidence : Option ℚ
  text_quality : Option String
  error : Option String

namespace OpenAIService

/-- `OpenAIService.sanity_check_ingredients` (src/services/openai_service.py:257):
on success the parsed `result` is returned as-is — note the computed local
default `result.get('verified_ingredients', ingredients)` is used only for
logging; on exception the returned dict carries the unmodified input as
`verified_ingredients`. -/
def sanity_check_ingredients (dish_name : String) (ingredients : List String)
    (call : Except String SanityParsed) : SanityResult :=
  match call with
  | .ok r =>
      { verified_ingredients := r.verified_ingredients,
        removed_ingredients := r.removed_ingredients,
        reasoning := r.reasoning, error := none }
  | .error e =>
      { verified_ingredients := some ingredients,
        removed_ingredients := some [],
        reasoning := some ("Error during sanity check: " ++ e),
        error := some e }

/-- `OpenAIService.split_dish_name` (src/services/openai_service.py:197): on
success the parsed result is returned raw; on exception `alternative_name` is
`None`. -/
def split_dish_name (dish_name : String)
    (call : Except String SplitParsed) : SplitParsed :=
  match call with
  | .ok r => r
  | .error e =>
      { original_name := some dish_name, alternative_name := none,
        reasoning := some ("Error: " ++ e) }

/-- `OpenAIService.suggest_additional_ingredients`
(src/services/openai_service.py:324): the model's `suggested_ingredients`
list is passed through unmodified (default `[]` if the key is absent); only
`confidence` is validated, clamped into [0, 1] around a default of 0.5. -/
def suggest_additional_ingredients (dish_name : String)
    (verified_ingredients mentioned_ingredients : List String)
    (ocr_text : String) (call : Except String SuggestParsed) : SuggestResult :=
  match call with
  | .ok r =>
      { suggested_ingredients := r.suggested_ingredients.getD [],
        reasoning := r.reasoning.getD "",
        confidence := max 0 (min 1 (r.confidence.getD (1/2))),
        hasError := false }
  | .error e =>
      { suggested_ingredients := [], reasoning := "Error: " ++ e,
        confidence := 0, hasError := true }

/-- `OpenAIService.analyze_ocr_text` (src/services/openai_service.py:129): the
parsed model JSON is returned raw on success — in particular
`overall_confidence` and the per-dish confidences are not clamped; the
exception branch returns empty dishes with confidence `0.0`. -/
def analyze_ocr_text (call : Except String Analysis) : Analysis :=
  match call with
  | .ok r => r
  | .error e =>
      { dishes := some [], overall_confidence := some 0,
        text_quality := some "poor", error := some e }

end OpenAIService

/-! ## Older AI enhancer variant (src/ingredients_api.py) -/

namespace AIEnhancer

/-- `AIEnhancer.enhance_ingredients` (src/ingredients_api.py:181): the oracle
is the raw text content of the chat response; it is split on commas, each
piece stripped and lowercased, pieces that are empty or of length ≤ 2 are
dropped, and the result is truncated to 8 entries. On exception, `[]`. -/
def enhance_ingredients (dish_name ocr_text : String)
    (current_ingredients : List String)
    (call : Except String String) : List String :=
  match call with
  | .error _ => []
  | .ok content =>
      ((((pyStrip content).splitOn ",").map (fun ing => pyLower (pyStrip ing))).filter
        (fun ing => decide (ing ≠ "") && decide (ing.length > 2))).take 8

end AIEnhancer

/-! ## Orchestrator (src/services/ocr_processor.py)

`_process_single_dish` wraps its five pipeline steps in one `try/except`. In
Python any of the four collaborator calls can raise (the JSON payloads are
dynamically typed), so the orchestrator's view of each call is an oracle
returning either the call's result dict or an exception that the per-dish
handler catches. -/

/-- The orchestrator's four collaborator calls, as per-dish oracles. -/
structure DishCalls where
  find_ingredients_for_dish : String → Except String SpoonacularService.SpoonResult
  split_dish_name : String → Except String SplitParsed
  sanity_check_ingredients : String → List String → Except String SanityResult
  suggest_additional_ingredients :
    String → List String → List String → String → Except String SuggestResult

/-- The `ingredients` sub-dict of a dish result. -/
structure DishIngredients where
  from_menu : List String
  from_spoonacular : List String
  verified_spoonacular : List String
  suggested_by_ai : List String
  combined_list : List String

/-- The `metadata` sub-dict of a dish result; the degraded (exception) branch
carries only `error` and `total_ingredients`, so other keys are `Option`. -/
structure DishMetadata where
  spoonacular_confidence : Option ℚ
  ai_confidence : Option ℚ
  recipes_found : Option Nat
  ai_reasoning : Option String
  total_ingredients : Nat
  sanity_check_performed : Option Bool
  error : Option String

/-- The `sources` sub-dict of a dish result. -/
structure DishSources where
  spoonacular_success : Bool
  openai_success : Bool

/-- One per-dish result record. -/
structure DishResult where
  dish_name : String
  ingredients : DishIngredients
  metadata : DishMetadata
  sources : DishSources

namespace OCRProcessor

/-- Steps 1–5 of `OCRProcessor._process_single_dish`
(src/services/ocr_processor.py:71), before the per-dish exception handler:
lookup, retry with a simplified name when nothing was found, sanity-check
(only on lookup success, reading `verified_ingredients` with default `[]`),
suggestion, merge, and assembly of the result dict. -/
def process_single_dish_body (c : DishCalls) (dish_name : String)
    (mentioned_ingredients : List String) (ocr_text : String) :
    Except String DishResult :=
  c.find_ingredients_for_dish dish_name >>= fun sp0 =>
  (if !sp0.found_recipes then
    c.split_dish_name dish_name >>= fun split =>
      match split.alternative_name with
      | some alt =>
          if alt ≠ "" then c.find_ingredients_for_dish alt else pure sp0
      | none => pure sp0
   else pure sp0) >>= fun sp =>
  (if sp.found_recipes then
    c.sanity_check_ingredients dish_name sp.ingredients >>= fun sanity =>
      pure (sanity.verified_ingredients.getD [])
   else pure []) >>= fun verified_ingredients =>
  c.suggest_additional_ingredients dish_name
      verified_ingredients mentioned_ingredients ocr_text >>= fun additional =>
  let all_ingredients := combine_ingredients
      (verified_ingredients ++ mentioned_ingredients.map pyLower)
      additional.suggested_ingredients
  pure {
    dish_name := dish_name,
    ingredients := {
      from_menu := mentioned_ingredients,
      from_spoonacular := sp.ingredients,
      verified_spoonacular := verified_ingredients,
      suggested_by_ai := additional.suggested_ingredients,
      combined_list := all_ingredients },
    metadata := {
      spoonacular_confidence := some (sp.confidence.getD 0),
      ai_confidence := some additional.confidence,
      recipes_found := some (sp.recipe_count.getD 0),
      ai_reasoning := some additional.reasoning,
      total_ingredients := all_ingredients.length,
      sanity_check_performed := some sp.found_recipes,
      error := none },
    sources := {
      spoonacular_success := sp.found_recipes,
      openai_success := !additional.hasError } }

/-- `OCRProcessor._process_single_dish` with its per-dish exception handler:
any exception in steps 1–5 becomes a degraded result whose `combined_list` is
the unmodified `mentioned_ingredients` and whose metadata records the error. -/
def process_single_dish (c : DishCalls) (dish_name : String)
    (mentioned_ingredients : List String) (ocr_text : String) : DishResult :=
  match process_single_dish_body c dish_name mentioned_ingredients ocr_text with
  | .ok r => r
  | .error e =>
      { dish_name := dish_name,
        ingredients := {
          from_menu := mentioned_ingredients,
          from_spoonacular := [],
          verified_spoonacular := [],
          suggested_by_ai := [],
          combined_list := mentioned_ingredients },
        metadata := {
          spoonacular_confidence := none,
          ai_confidence := none,
          recipes_found := none,
          ai_reasoning := none,
          total_ingredients := mentioned_ingredients.length,
          sanity_check_performed := none,
          error := some e },
        sources := {
          spoonacular_success := false,
          openai_success := false } }

/-- The per-dish loop of `process_ocr_text` (src/services/ocr_processor.py:38):
dishes whose stripped name is empty are skipped; the rest are processed
one by one. -/
def process_dishes (c : DishCalls) (dishes : List DishData)
    (ocr_text : String) : List DishResult :=
  dishes.filterMap (fun dish_data =>
    let dish_name := pyStrip (dish_data.name.getD "")
    if dish_name = "" then none
    else some (process_single_dish c dish_name
        (dish_data.mentioned_ingredients.getD []) ocr_text))

/-- Round-half-to-even of a rational, modelling Python's `round`. -/
def roundHalfToEven (q : ℚ) : ℤ :=
  if q - ⌊q⌋ < 1/2 then ⌊q⌋
  else if q - ⌊q⌋ > 1/2 then ⌊q⌋ + 1
  else if ⌊q⌋ % 2 = 0 then ⌊q⌋ else ⌊q⌋ + 1

/-- Python `round(x, 1)` (on exact rationals). -/
def py_round1 (q : ℚ) : ℚ := (roundHalfToEven (10 * q) : ℚ) / 10

/-- The dict of `_generate_processing_summary`. -/
structure ProcessingSummary where
  total_dishes_processed : Nat
  spoonacular_success_rate : ℚ
  openai_success_rate : ℚ
  total_ingredients_found : Nat
  average_ingredients_per_dish : ℚ

/-- `OCRProcessor._generate_processing_summary`
(src/services/ocr_processor.py:178). -/
def generate_processing_summary (dishes : List DishResult) : ProcessingSummary :=
  let total_dishes := dishes.length
  let spoonacular_successes :=
    (dishes.filter (fun d => d.sources.spoonacular_success)).length
  let openai_successes :=
    (dishes.filter (fun d => d.sources.openai_success)).length
  let total_ingredients : Nat :=
    (dishes.map (fun d => d.metadata.total_ingredients)).sum
  let avg : ℚ :=
    if total_dishes > 0 then (total_ingredients : ℚ) / total_dishes else 0
  { total_dishes_processed := total_dishes,
    spoonacular_success_rate :=
      if total_dishes > 0 then (spoonacular_successes : ℚ) / total_dishes else 0,
    openai_success_rate :=
      if total_dishes > 0 then (openai_successes : ℚ) / total_dishes else 0,
    total_ingredients_found := total_ingredients,
    average_ingredients_per_dish := py_round1 avg }

/-- The dict returned by `OCRProcessor.process_ocr_text`; keys that only some
branches set are `Option` fields. -/
structure OcrResponse where
  success : Bool
  message : Option String
  total_dishes : Option Nat
  ocr_analysis : Option Analysis
  dishes : Option (List DishResult)
  processing_summary : Option ProcessingSummary
  error : Option String

/-- `OCRProcessor.process_ocr_text` (src/services/ocr_processor.py:15):
analyze once; zero dishes short-circuit into a `success := false` response
with an empty `dishes` list; otherwise process each dish and aggregate. The
`analyze` oracle is the outcome of the one `analyze_ocr_text` call. -/
def process_ocr_text (c : DishCalls) (analyze : Except String Analysis)
    (ocr_text : String) : OcrResponse :=
  let ocr_analysis := OpenAIService.analyze_ocr_text analyze
  let dishes := ocr_analysis.dishes.getD []
  if dishes.isEmpty then
    { success := false,
      message := some "No dishes could be identified in the OCR text",
      total_dishes := none,
      ocr_analysis := some ocr_analysis,
      dishes := some [],
      processing_summary := none,
      error := none }
  else
    let processed := process_dishes c dishes ocr_text
    { success := true,
      message := none,
      total_dishes := some processed.length,
      ocr_analysis := some ocr_analysis,
      dishes := some processed,
      processing_summary := some (generate_processing_summary processed),
      error := none }

end OCRProcessor

/-! ## HTTP boundary (src/app.py) -/

/-- A route response body: either a bare `{'error': ...}` object or the full
processing result. -/
inductive HttpBody where
  | errorBody (msg : String)
  | result (r : OCRProcessor.OcrResponse)

/-- The request as the handler sees it: `none` = not JSON; `some none` = JSON
without an `ocr_text` key; `some (some t)` = JSON with `ocr_text = t`. -/
def OcrRequest : Type := Option (Option String)

/-- The `/api/process-ocr` handler (src/app.py:43): validation yields 400s;
otherwise the processing result is returned with the default status 200. -/
def process_ocr (c : DishCalls) (analyze : Except String Analysis)
    (request : OcrRequest) : Nat × HttpBody :=
  match request with
  | none => (400, .errorBody "Content-Type must be application/json")
  | some none => (400, .errorBody "Missing required field: ocr_text")
  | some (some raw) =>
      let ocr_text := pyStrip raw
      if ocr_text = "" then (400, .errorBody "ocr_text cannot be empty")
      else (200, .result (OCRProcessor.process_ocr_text c analyze ocr_text))

/-! ## Text normalizer (src/ingredients_api.py TextProcessor) -/

/-- Is the character one of the accented characters appearing in the OCR-typo
replacement table? -/
def accentChar (c : Char) : Bool := c == 'í' || c == 'é' || c == 'ó'

/-- The regex class `\w` restricted to the repository's character repertoire:
ASCII alphanumerics, underscore, and the accented letters of the typo table. -/
def wordChar (c : Char) : Bool := c.isAlphanum || c == '_' || accentChar c

/-- The whitelist of `re.sub(r'[^\w\s\-&,.()\'/]', '', text)`. -/
def allowedChar (c : Char) : Bool :=
  wordChar c || pySpace c || c == '-' || c == '&' || c == ',' || c == '.' ||
    c == '(' || c == ')' || c == '\'' || c == '/'

/-- `re.sub(r'\s+', ' ', text)`: each maximal whitespace run becomes one
space. -/
def squeeze : List Char → List Char
  | [] => []
  | c :: cs =>
    if pySpace c then
      match cs with
      | [] => [' ']
      | d :: _ => if pySpace d then squeeze cs else ' ' :: squeeze cs
    else c :: squeeze cs

/-- Fuel-driven core of Python's `str.replace(pat, rep)`: replace each
leftmost non-overlapping occurrence. The fuel is the input length, which
bounds the recursion depth since every step consumes at least one character. -/
def replaceGo (pat rep : List Char) : Nat → List Char → List Char
  | 0, l => l
  | _ + 1, [] => []
  | n + 1, c :: cs =>
      if pat ≠ [] && pat.isPrefixOf (c :: cs) then
        rep ++ replaceGo pat rep n ((c :: cs).drop pat.length)
      else c :: replaceGo pat rep n cs

/-- Python `text.replace(pat, rep)` on character lists. -/
def replaceChars (pat rep : List Char) (l : List Char) : List Char :=
  replaceGo pat rep l.length l

/-- The fixed OCR-typo replacement table of `clean_ocr_text`, applied in
order. -/
def ocrReplacements : List (List Char × List Char) :=
  [("chícken".data, "chicken".data), ("chíck".data, "chicken".data),
   ("beéf".data, "beef".data), ("pórk".data, "pork".data),
   ("tómato".data, "tomato".data), ("oníon".data, "onion".data),
   ("chése".data, "cheese".data), ("chéese".data, "cheese".data)]

/-- Apply all typo replacements, in table order. -/
def applyReplacements (l : List Char) : List Char :=
  ocrReplacements.foldl (fun acc p => replaceChars p.1 p.2 acc) l

namespace TextProcessor

/-- `TextProcessor.clean_ocr_text` (src/ingredients_api.py:36): strip and
collapse whitespace, drop characters outside the whitelist, then apply the
typo table. -/
def clean_ocr_text (text : String) : String :=
  ⟨applyReplacements (List.filter allowedChar (squeeze (stripChars text.data)))⟩

end TextProcessor

/-- A benign collaborator environment in which every call returns its
documented empty/default payload; used to instantiate concrete pipeline
runs. -/
def benignCalls : DishCalls where
  find_ingredients_for_dish := fun name =>
    .ok { dish_name := name, ingredients := [], found_recipes := false,
          recipe_count := some 0, confidence := none, error := none }
  split_dish_name := fun _ =>
    .ok { original_name := none, alternative_name := none, reasoning := none }
  sanity_check_ingredients := fun _ _ =>
    .ok { verified_ingredients := none, removed_ingredients := none,
          reasoning := none, error := none }
  suggest_additional_ingredients := fun _ _ _ _ =>
    .ok { suggested_ingredients := [], reasoning := "", confidence := 0,
          hasError := false }

/-- A collaborator environment in which every call raises, exercising the
per-dish exception handler. -/
def failingCalls : DishCalls where
  find_ingredients_for_dish := fun _ => .error "boom"
  split_dish_name := fun _ => .error "boom"
  sanity_check_ingredients := fun _ _ => .error "boom"
  suggest_additional_ingredients := fun _ _ _ _ => .error "boom"

/-- A concrete parsed suggestion response with nine entries, the first of
which repeats a verified ingredient. -/
def nineSuggestions : SuggestParsed where
  suggested_ingredients :=
    some ["salt", "basil", "oregano", "olive oil", "garlic", "flour",
          "yeast", "water", "sugar"]
  reasoning := none
  confidence := none

/-! ## Character-level lemmas -/

theorem toNat_ofNat_valid (n : Nat) (h : n.isValidChar) :
    (Char.ofNat n).toNat = n := by
  rw [Char.ofNat, dif_pos h]
  rfl

theorem toLower_toLower (c : Char) : c.toLower.toLower = c.toLower := by
  unfold Char.toLower
  by_cases h : c.toNat ≥ 65 ∧ c.toNat ≤ 90
  · rw [if_pos h]
    have hv : (c.toNat + 32).isValidChar := Or.inl (by omega)
    have ht : (Char.ofNat (c.toNat + 32)).toNat = c.toNat + 32 :=
      toNat_ofNat_valid _ hv
    rw [if_neg]
    omega
  · rw [if_neg h, if_neg h]

theorem stripChars_sublist (l : List Char) : (stripChars l).Sublist l := by
  unfold stripChars
  have h1 : ((l.dropWhile pySpace).reverse.dropWhile pySpace).Sublist
      (l.dropWhile pySpace).reverse := List.dropWhile_sublist _
  have h2 : ((l.dropWhile pySpace).reverse.dropWhile pySpace).reverse.Sublist
      (l.dropWhile pySpace) := by
    simpa using h1.reverse
  exact h2.trans (List.dropWhile_sublist _)

/-- `lower().strip()` output is a fixed point of `lower()`. -/
theorem pyLower_lowerStrip (s : String) : pyLower (lowerStrip s) = lowerStrip s := by
  unfold lowerStrip pyLower pyStrip
  congr 1
  have hmem : ∀ c ∈ stripChars (s.data.map Char.toLower), c.toLower = c := by
    intro c hc
    have : c ∈ s.data.map Char.toLower :=
      (stripChars_sublist _).mem hc
    obtain ⟨a, _, rfl⟩ := List.mem_map.mp this
    exact toLower_toLower a
  simpa using List.map_congr_left (fun c hc => hmem c hc) |>.trans (List.map_id _)

/-! ## Generic sorted-set lemma -/

/-- The sorted, deduplicated output of either merge operation is strictly
ascending and (because all its entries are lowercase fixed points) contains no
case-insensitive duplicates. -/
theorem sorted_set_spec (l : List String) (hfix : ∀ x ∈ l, pyLower x = x) :
    (List.insertionSort (· ≤ ·) l.dedup).Sorted (· < ·) ∧
    (List.insertionSort (· ≤ ·) l.dedup).Pairwise
      (fun a b => pyLower a ≠ pyLower b) := by
  have hperm : List.Perm (List.insertionSort (· ≤ ·) l.dedup) l.dedup :=
    List.perm_insertionSort _ _
  have hnodup : (List.insertionSort (· ≤ ·) l.dedup).Nodup :=
    hperm.nodup_iff.mpr (List.nodup_dedup l)
  have hsorted : (List.insertionSort (· ≤ ·) l.dedup).Sorted (· ≤ ·) :=
    List.sorted_insertionSort _ _
  refine ⟨List.Sorted.lt_of_le hsorted hnodup, ?_⟩
  have hmem : ∀ x ∈ List.insertionSort (· ≤ ·) l.dedup, pyLower x = x := by
    intro x hx
    exact hfix x (List.mem_dedup.mp (hperm.mem_iff.mp hx))
  exact hnodup.imp_of_mem (fun ha hb hne => by
    rw [hmem _ ha, hmem _ hb]; exact hne)

/-- Helper: every element of the pool fed to `OCRProcessor._combine_ingredients`
is a `lower().strip()` image, hence a fixed point of `lower()`. -/
theorem mem_ocr_pool_fix (known suggested : List String) :
    ∀ x ∈ known.map lowerStrip ++
        (suggested.map lowerStrip).filter (fun c => c ≠ ""),
      pyLower x = x := by
  intro x hx
  rcases List.mem_append.mp hx with h | h
  · obtain ⟨a, _, rfl⟩ := List.mem_map.mp h
    exact pyLower_lowerStrip a
  · obtain ⟨a, _, rfl⟩ := List.mem_map.mp (List.mem_of_mem_filter h)
    exact pyLower_lowerStrip a

/-- Helper: filtering a strictly sorted, case-insensitively duplicate-free
list preserves both properties; used for the older merge variant, which
filters empty strings after deduplication. -/
theorem api_pool_fix (spo ai : List String) :
    ∀ x ∈ ((spo ++ ai).map lowerStrip), pyLower x = x := by
  intro x hx
  obtain ⟨a, _, rfl⟩ := List.mem_map.mp hx
  exact pyLower_lowerStrip a

/-- Variant of `sorted_set_spec` for the older merge, where an empty-string
filter sits between `dedup` and the sort. -/
theorem sorted_set_filter_spec (l : List String) (hfix : ∀ x ∈ l, pyLower x = x) :
    (List.insertionSort (· ≤ ·) (l.dedup.filter (fun ing => ing ≠ ""))).Sorted (· < ·) ∧
    (List.insertionSort (· ≤ ·) (l.dedup.filter (fun ing => ing ≠ ""))).Pairwise
      (fun a b => pyLower a ≠ pyLower b) := by
  set d := l.dedup.filter (fun ing => ing ≠ "") with hd
  have hperm : List.Perm (List.insertionSort (· ≤ ·) d) d :=
    List.perm_insertionSort _ _
  have hnodup : (List.insertionSort (· ≤ ·) d).Nodup :=
    hperm.nodup_iff.mpr ((List.nodup_dedup l).filter _)
  have hsorted : (List.insertionSort (· ≤ ·) d).Sorted (· ≤ ·) :=
    List.sorted_insertionSort _ _
  refine ⟨List.Sorted.lt_of_le hsorted hnodup, ?_⟩
  have hmem : ∀ x ∈ List.insertionSort (· ≤ ·) d, pyLower x = x := by
    intro x hx
    have : x ∈ l.dedup := List.mem_of_mem_filter (hperm.mem_iff.mp hx)
    exact hfix x (List.mem_dedup.mp this)
  exact hnodup.imp_of_mem (fun ha hb hne => by
    rw [hmem _ ha, hmem _ hb]; exact hne)

/-- C1: For every pair of input ingredient lists (known and suggested), the
combined list produced by `OCRProcessor._combine_ingredients` and by
`IngredientProcessor.combine_ingredients` contains no duplicate entries when
compared case-insensitively (`pyLower a ≠ pyLower b` for distinct entries)
and is sorted in strictly ascending lexicographic order. -/
theorem combine_ingredients_ci_nodup_sorted (known suggested : List String) :
    ((OCRProcessor.combine_ingredients known suggested).Sorted (· < ·) ∧
     (OCRProcessor.combine_ingredients known suggested).Pairwise
       (fun a b => pyLower a ≠ pyLower b)) ∧
    ((IngredientProcessor.combine_ingredients known suggested).Sorted (· < ·) ∧
     (IngredientProcessor.combine_ingredients known suggested).Pairwise
       (fun a b => pyLower a ≠ pyLower b)) := by
  constructor
  · exact sorted_set_spec _ (mem_ocr_pool_fix known suggested)
  · exact sorted_set_filter_spec _ (api_pool_fix known suggested)

/-! ## Service-level claims -/

/-- C3 counterexample: when the recipe search returns no results,
`find_ingredients_for_dish` marks `found_recipes = false` but the returned
dict has no `confidence` key at all (`none`), so its confidence field does
not equal 0.0 as the claim states. -/
theorem find_ingredients_confidence_missing_when_not_found :
    (SpoonacularService.find_ingredients_for_dish "pizza" (.ok [])).found_recipes = false ∧
    (SpoonacularService.find_ingredients_for_dish "pizza" (.ok [])).confidence ≠ some 0 := by
  refine ⟨rfl, ?_⟩
  simp [SpoonacularService.find_ingredients_for_dish]

/-- C3 amended: when `found_recipes` is true the confidence field equals
`min(1, recipe_count/3)` and lies in [0, 1]; when `found_recipes` is false
the confidence key is absent, and a caller reading it with
`.get('confidence', 0.0)` observes 0.0. -/
theorem find_ingredients_confidence_spec (dish_name : String)
    (search : Except String (List Recipe)) :
    ((SpoonacularService.find_ingredients_for_dish dish_name search).found_recipes = true →
      (SpoonacularService.find_ingredients_for_dish dish_name search).confidence =
        some (min 1
          (((SpoonacularService.find_ingredients_for_dish dish_name
              search).recipe_count.getD 0 : ℚ) / 3)) ∧
      ∀ q, (SpoonacularService.find_ingredients_for_dish dish_name search).confidence =
          some q → 0 ≤ q ∧ q ≤ 1) ∧
    ((SpoonacularService.find_ingredients_for_dish dish_name search).found_recipes = false →
      (SpoonacularService.find_ingredients_for_dish dish_name search).confidence = none ∧
      (SpoonacularService.find_ingredients_for_dish dish_name
          search).confidence.getD 0 = 0) := by
  cases search with
  | error e =>
      refine ⟨fun h => by simp [SpoonacularService.find_ingredients_for_dish] at h, ?_⟩
      intro _
      exact ⟨rfl, rfl⟩
  | ok recipes =>
      by_cases hemp : recipes.isEmpty
      · refine ⟨fun h => ?_, fun _ => ?_⟩
        · simp [SpoonacularService.find_ingredients_for_dish, hemp] at h
        · simp [SpoonacularService.find_ingredients_for_dish, hemp]
      · refine ⟨fun _ => ⟨?_, ?_⟩, fun h => ?_⟩
        · simp [SpoonacularService.find_ingredients_for_dish, hemp]
        · intro q hq
          simp [SpoonacularService.find_ingredients_for_dish, hemp] at hq
          subst hq
          constructor
          · exact le_min (by norm_num) (by positivity)
          · exact min_le_left _ _
        · simp [SpoonacularService.find_ingredients_for_dish, hemp] at h

/-- C3 amended, witness: a one-recipe search yields confidence `min 1 (1/3)`;
an empty search yields an absent confidence read as 0.0 by default. -/
theorem find_ingredients_confidence_spec_witness :
    (SpoonacularService.find_ingredients_for_dish "soup"
        (.ok [{ extendedIngredients := none }])).confidence =
      some (min 1 ((1 : ℚ) / 3)) ∧
    (SpoonacularService.find_ingredients_for_dish "tea"
        (.ok [])).confidence.getD 0 = 0 := by
  have h1 := (find_ingredients_confidence_spec "soup"
      (.ok [{ extendedIngredients := none }])).1 rfl
  have h2 := (find_ingredients_confidence_spec "tea" (.ok [])).2 rfl
  refine ⟨?_, h2.2⟩
  have h3 := h1.1
  simp [SpoonacularService.find_ingredients_for_dish] at h3
  simp [SpoonacularService.find_ingredients_for_dish, h3]

/-- C4: the claim is right and the code is wrong. The fail-open policy holds
for the exception branch (second conjunct), but a successfully parsed
response that lacks the `verified_ingredients` key makes the caller's
`.get('verified_ingredients', [])` fall back to the empty list instead of the
unmodified input (first conjunct evaluates the failing input) — even though
the service itself computes `result.get('verified_ingredients', ingredients)`
for its log line. -/
theorem sanity_check_missing_key_fails_closed :
    ((OpenAIService.sanity_check_ingredients "pizza" ["cheese"]
        (.ok { verified_ingredients := none, removed_ingredients := none,
               reasoning := none })).verified_ingredients.getD []) = [] ∧
    (∀ dish_name ingredients e,
      ((OpenAIService.sanity_check_ingredients dish_name ingredients
          (.error e)).verified_ingredients.getD []) = ingredients) :=
  ⟨rfl, fun _ _ _ => rfl⟩

/-- C2 counterexample: a parsed suggestion response with nine entries, one of
which is already in the verified list the call was seeded with, is returned
verbatim by `suggest_additional_ingredients`: the 8-entry cap and the
already-verified exclusion are requested only in the prompt, not enforced. -/
theorem suggest_additional_ingredients_uncapped :
    ¬ ((OpenAIService.suggest_additional_ingredients "pizza" ["salt"] [] ""
          (.ok nineSuggestions)).suggested_ingredients.length ≤ 8 ∧
       ∀ x ∈ (OpenAIService.suggest_additional_ingredients "pizza" ["salt"] [] ""
          (.ok nineSuggestions)).suggested_ingredients,
         x ∉ (["salt"] : List String)) := by
  decide

/-- C2 amended: the older variant `enhance_ingredients` does truncate its
output to at most 8 entries; `suggest_additional_ingredients` passes the
model's list through unmodified (empty only when the call fails), enforcing
neither the cap nor the exclusion of already-verified entries. -/
theorem enhance_capped_suggest_passthrough :
    (∀ dish_name ocr_text current_ingredients call,
      (AIEnhancer.enhance_ingredients dish_name ocr_text current_ingredients
        call).length ≤ 8) ∧
    (∀ dish_name verified mentioned ocr_text e,
      (OpenAIService.suggest_additional_ingredients dish_name verified mentioned
        ocr_text (.error e)).suggested_ingredients = []) ∧
    (∀ dish_name verified mentioned ocr_text r,
      (OpenAIService.suggest_additional_ingredients dish_name verified mentioned
        ocr_text (.ok r)).suggested_ingredients =
        r.suggested_ingredients.getD []) := by
  refine ⟨?_, fun _ _ _ _ _ => rfl, fun _ _ _ _ _ => rfl⟩
  intro dn ot ci call
  cases call with
  | error e => simp [AIEnhancer.enhance_ingredients]
  | ok content =>
      simp [AIEnhancer.enhance_ingredients]

/-- C7 counterexample: `analyze_ocr_text` returns the parsed model JSON raw,
so an out-of-range `overall_confidence` of 2 appears unmodified in the
pipeline response's `ocr_analysis` — not every confidence in the output lies
in [0, 1]. -/
theorem overall_confidence_not_clamped :
    ((OCRProcessor.process_ocr_text benignCalls
        (.ok { dishes := some [], overall_confidence := some 2,
               text_quality := some "good", error := none })
        "menu").ocr_analysis.map (fun a => a.overall_confidence)) =
      some (some 2) ∧ ¬ ((2 : ℚ) ≤ 1) := by
  constructor
  · rfl
  · norm_num

/-- C7 amended: the suggestion confidence is clamped into [0, 1] even when
the remote model returns an out-of-range value, and the recipe-lookup
confidence lies in [0, 1] whenever it is present; the OCR-analysis overall
and per-dish confidences, in contrast, are passed through unvalidated. -/
theorem suggestion_confidence_clamped (dish_name : String)
    (verified mentioned : List String) (ocr_text : String)
    (call : Except String SuggestParsed) :
    (0 ≤ (OpenAIService.suggest_additional_ingredients dish_name verified
            mentioned ocr_text call).confidence ∧
     (OpenAIService.suggest_additional_ingredients dish_name verified
        mentioned ocr_text call).confidence ≤ 1) ∧
    (∀ search q,
      (SpoonacularService.find_ingredients_for_dish dish_name
          search).confidence = some q → 0 ≤ q ∧ q ≤ 1) := by
  constructor
  · cases call with
    | error e =>
        exact ⟨le_refl 0, by norm_num [OpenAIService.suggest_additional_ingredients]⟩
    | ok r =>
        refine ⟨le_max_left 0 _, ?_⟩
        exact max_le (by norm_num) (min_le_left _ _)
  · intro search q hq
    cases search with
    | error e => simp [SpoonacularService.find_ingredients_for_dish] at hq
    | ok recipes =>
        by_cases hemp : recipes.isEmpty
        · simp [SpoonacularService.find_ingredients_for_dish, hemp] at hq
        · simp [SpoonacularService.find_ingredients_for_dish, hemp] at hq
          subst hq
          exact ⟨le_min (by norm_num) (by positivity), min_le_left _ _⟩

/-- C7 amended, witness: at an out-of-range parsed confidence of 7/2 the
suggestion confidence evaluates inside [0, 1], and a concrete found lookup's
confidence is in range. -/
theorem suggestion_confidence_clamped_witness :
    (0 ≤ (OpenAIService.suggest_additional_ingredients "pizza" [] [] ""
            (.ok { suggested_ingredients := none, reasoning := none,
                   confidence := some (7/2) })).confidence ∧
     (OpenAIService.suggest_additional_ingredients "pizza" [] [] ""
        (.ok { suggested_ingredients := none, reasoning := none,
               confidence := some (7/2) })).confidence ≤ 1) ∧
    (0 ≤ min 1 ((1 : ℚ) / 3) ∧ min 1 ((1 : ℚ) / 3) ≤ 1) := by
  refine ⟨(suggestion_confidence_clamped "pizza" [] [] "" _).1, ?_⟩
  refine (suggestion_confidence_clamped "pizza" [] [] ""
      (.error "x")).2 (.ok [{ extendedIngredients := none }]) _ ?_
  simp [SpoonacularService.find_ingredients_for_dish,
    SpoonacularService.extract_ingredients_from_recipes]

/-! ## Orchestrator-level claims -/

/-- Destructing a successful `Except` bind. -/
theorem except_bind_ok {α β : Type} (x : Except String α)
    (f : α → Except String β) (b : β) (h : x >>= f = .ok b) :
    ∃ a, x = .ok a ∧ f a = .ok b := by
  cases x with
  | error e => simp [Bind.bind, Except.bind] at h
  | ok a =>
      refine ⟨a, rfl, ?_⟩
      simpa [Bind.bind, Except.bind] using h

/-- C6: when the OCR-analysis step yields zero dishes (and the request passed
validation), the handler returns HTTP status 200 with a body whose `success`
is false and whose `dishes` list is empty. -/
theorem zero_dishes_http_200 (c : DishCalls) (analyze : Except String Analysis)
    (raw : String) (hne : pyStrip raw ≠ "")
    (hzero : (OpenAIService.analyze_ocr_text analyze).dishes.getD [] = []) :
    process_ocr c analyze (some (some raw)) =
      (200, .result (OCRProcessor.process_ocr_text c analyze (pyStrip raw))) ∧
    (OCRProcessor.process_ocr_text c analyze (pyStrip raw)).success = false ∧
    (OCRProcessor.process_ocr_text c analyze (pyStrip raw)).dishes = some [] := by
  refine ⟨?_, ?_, ?_⟩
  · simp [process_ocr, hne]
  · simp [OCRProcessor.process_ocr_text, hzero]
  · simp [OCRProcessor.process_ocr_text, hzero]

/-- C6 witness: a concrete validated request whose analysis has an empty
dishes array produces the 200 / `success := false` / `dishes := []`
response. -/
theorem zero_dishes_http_200_witness :
    process_ocr benignCalls
        (.ok { dishes := some [], overall_confidence := some 1,
               text_quality := some "good", error := none })
        (some (some "menu")) =
      (200, .result (OCRProcessor.process_ocr_text benignCalls
        (.ok { dishes := some [], overall_confidence := some 1,
               text_quality := some "good", error := none })
        (pyStrip "menu"))) ∧
    (OCRProcessor.process_ocr_text benignCalls
        (.ok { dishes := some [], overall_confidence := some 1,
               text_quality := some "good", error := none })
        (pyStrip "menu")).success = false ∧
    (OCRProcessor.process_ocr_text benignCalls
        (.ok { dishes := some [], overall_confidence := some 1,
               text_quality := some "good", error := none })
        (pyStrip "menu")).dishes = some [] :=
  zero_dishes_http_200 benignCalls _ "menu" (by decide) rfl

/-- C5: an exception anywhere in steps 1–5 of the per-dish pipeline is caught
at the dish boundary and yields a well-formed degraded result whose
`combined_list` is exactly `mentioned_ingredients`, with the error message
under `metadata.error`; and dish processing distributes over the dish list,
so the remaining dishes are processed unaffected. -/
theorem dish_exception_degraded (c : DishCalls) (dish_name : String)
    (mentioned_ingredients : List String) (ocr_text e : String)
    (h : OCRProcessor.process_single_dish_body c dish_name
        mentioned_ingredients ocr_text = .error e) :
    ((OCRProcessor.process_single_dish c dish_name mentioned_ingredients
        ocr_text).ingredients.combined_list = mentioned_ingredients ∧
     (OCRProcessor.process_single_dish c dish_name mentioned_ingredients
        ocr_text).metadata.error = some e ∧
     (OCRProcessor.process_single_dish c dish_name mentioned_ingredients
        ocr_text).dish_name = dish_name ∧
     (OCRProcessor.process_single_dish c dish_name mentioned_ingredients
        ocr_text).ingredients.from_menu = mentioned_ingredients ∧
     (OCRProcessor.process_single_dish c dish_name mentioned_ingredients
        ocr_text).metadata.total_ingredients = mentioned_ingredients.length ∧
     (OCRProcessor.process_single_dish c dish_name mentioned_ingredients
        ocr_text).sources.spoonacular_success = false ∧
     (OCRProcessor.process_single_dish c dish_name mentioned_ingredients
        ocr_text).sources.openai_success = false) ∧
    (∀ (dishes₁ dishes₂ : List DishData) (ot : String),
      OCRProcessor.process_dishes c (dishes₁ ++ dishes₂) ot =
        OCRProcessor.process_dishes c dishes₁ ot ++
          OCRProcessor.process_dishes c dishes₂ ot) := by
  constructor
  · simp [OCRProcessor.process_single_dish, h]
  · intro d₁ d₂ ot
    simp [OCRProcessor.process_dishes, List.filterMap_append]

/-- C5 witness: with a collaborator environment whose first call raises, the
degraded result carries the mentioned ingredients verbatim and records the
error. -/
theorem dish_exception_degraded_witness :
    (OCRProcessor.process_single_dish failingCalls "pizza" ["Basil"]
        "menu").ingredients.combined_list = ["Basil"] ∧
    (OCRProcessor.process_single_dish failingCalls "pizza" ["Basil"]
        "menu").metadata.error = some "boom" := by
  have h := dish_exception_degraded failingCalls "pizza" ["Basil"] "menu"
      "boom" rfl
  exact ⟨h.1.1, h.1.2.1⟩

/-- C8 counterexample: with a failed lookup, the mentioned ingredient
`"Tomato"` is not contained verbatim in the combined list — only its
lowercased form is. -/
theorem mentioned_not_contained_verbatim :
    (OCRProcessor.process_single_dish benignCalls "pizza" ["Tomato"]
        "x").sources.spoonacular_success = false ∧
    "Tomato" ∈ (["Tomato"] : List String) ∧
    "Tomato" ∉ (OCRProcessor.process_single_dish benignCalls "pizza" ["Tomato"]
        "x").ingredients.combined_list := by
  decide

/-- `pyLower` is idempotent. -/
theorem pyLower_pyLower (s : String) : pyLower (pyLower s) = pyLower s := by
  unfold pyLower
  simp [List.map_map, Function.comp_def, toLower_toLower]

/-- The merge always keeps (the normalized form of) every known ingredient. -/
theorem lowerStrip_mem_combine (known suggested : List String) (k : String)
    (hk : k ∈ known) :
    lowerStrip k ∈ OCRProcessor.combine_ingredients known suggested := by
  unfold OCRProcessor.combine_ingredients
  have hperm := List.perm_insertionSort (α := String) (· ≤ ·)
      ((known.map lowerStrip ++
        (suggested.map lowerStrip).filter (fun c => c ≠ "")).dedup)
  rw [hperm.mem_iff, List.mem_dedup, List.mem_append]
  exact Or.inl (List.mem_map_of_mem lowerStrip hk)

/-- C8 amended: for every dish whose recipe lookup failed, the combined list
contains the `lower().strip()` normalization of every mentioned ingredient —
unless the dish degraded through the exception handler, in which case the
combined list is the mentioned list verbatim (so contains each literally). -/
theorem combined_contains_normalized_mentioned (c : DishCalls)
    (dish_name : String) (mentioned_ingredients : List String)
    (ocr_text : String)
    (hfail : (OCRProcessor.process_single_dish c dish_name
        mentioned_ingredients ocr_text).sources.spoonacular_success = false) :
    (∀ m ∈ mentioned_ingredients,
      lowerStrip m ∈ (OCRProcessor.process_single_dish c dish_name
          mentioned_ingredients ocr_text).ingredients.combined_list) ∨
    (OCRProcessor.process_single_dish c dish_name mentioned_ingredients
        ocr_text).ingredients.combined_list = mentioned_ingredients := by
  rcases hbody : OCRProcessor.process_single_dish_body c dish_name
      mentioned_ingredients ocr_text with e | r
  · right
    simp [OCRProcessor.process_single_dish, hbody]
  · left
    intro m hm
    simp only [OCRProcessor.process_single_dish, hbody]
    rw [OCRProcessor.process_single_dish_body] at hbody
    obtain ⟨sp0, h0, hbody⟩ := except_bind_ok _ _ _ hbody
    obtain ⟨sp, h1, hbody⟩ := except_bind_ok _ _ _ hbody
    obtain ⟨verified, h2, hbody⟩ := except_bind_ok _ _ _ hbody
    obtain ⟨additional, h3, hbody⟩ := except_bind_ok _ _ _ hbody
    have hr : r = _ := (Except.ok.inj hbody).symm
    rw [hr]
    have : lowerStrip (pyLower m) = lowerStrip m := by
      unfold lowerStrip
      rw [pyLower_pyLower]
    rw [← this]
    exact lowerStrip_mem_combine _ _ _
      (List.mem_append_right verified (List.mem_map_of_mem pyLower hm))

/-- C8 amended, witness: at a concrete failed lookup, `"tomato"` (the
normalization of the mentioned `"Tomato"`) is in the combined list. -/
theorem combined_contains_normalized_mentioned_witness :
    (OCRProcessor.process_single_dish benignCalls "sushi" ["Tomato"]
        "x").sources.spoonacular_success = false ∧
    ((∀ m ∈ (["Tomato"] : List String),
      lowerStrip m ∈ (OCRProcessor.process_single_dish benignCalls "sushi"
          ["Tomato"] "x").ingredients.combined_list) ∨
     (OCRProcessor.process_single_dish benignCalls "sushi" ["Tomato"]
        "x").ingredients.combined_list = ["Tomato"]) :=
  ⟨by decide,
   combined_contains_normalized_mentioned benignCalls "sushi" ["Tomato"] "x"
     (by decide)⟩

/-- C10: in `OCRProcessor._combine_ingredients`, known ingredients are added
after lowercasing and trimming with no emptiness check, so a whitespace-only
known ingredient puts the empty string into the combined list; the empty
string can only come from the known side (suggested entries trimming to
empty are filtered out); and the older `IngredientProcessor.combine_ingredients`
filters empty strings from both sources. -/
theorem empty_string_from_known_only :
    (OCRProcessor.combine_ingredients [" "] [] = [""]) ∧
    (∀ known suggested, (∀ k ∈ known, lowerStrip k ≠ "") →
      "" ∉ OCRProcessor.combine_ingredients known suggested) ∧
    (∀ spoonacular_ingredients ai_suggested,
      "" ∉ IngredientProcessor.combine_ingredients spoonacular_ingredients
        ai_suggested) := by
  refine ⟨by decide, ?_, ?_⟩
  · intro known suggested hk hmem
    unfold OCRProcessor.combine_ingredients at hmem
    rw [(List.perm_insertionSort _ _).mem_iff, List.mem_dedup,
      List.mem_append] at hmem
    rcases hmem with h | h
    · obtain ⟨a, ha, hae⟩ := List.mem_map.mp h
      exact hk a ha hae
    · have := List.of_mem_filter h
      simp at this
  · intro spo ai hmem
    unfold IngredientProcessor.combine_ingredients at hmem
    rw [(List.perm_insertionSort _ _).mem_iff] at hmem
    have := List.of_mem_filter hmem
    simp at this

/-- C10 witness: a known ingredient that normalizes to a non-empty string
never yields the empty string in the combined list. -/
theorem empty_string_from_known_only_witness :
    "" ∉ OCRProcessor.combine_ingredients ["Tomato"] [" "] :=
  empty_string_from_known_only.2.1 ["Tomato"] [" "] (by decide)

/-! ## Text-normalizer lemmas (C9) -/

theorem squeeze_cons_not (a : Char) (cs : List Char) (ha : pySpace a = false) :
    squeeze (a :: cs) = a :: squeeze cs := by
  simp [squeeze, ha]

theorem squeeze_single_space (a : Char) (ha : pySpace a = true) :
    squeeze [a] = [' '] := by
  simp [squeeze, ha]

theorem squeeze_space_space (a d : Char) (ds : List Char)
    (ha : pySpace a = true) (hd : pySpace d = true) :
    squeeze (a :: d :: ds) = squeeze (d :: ds) := by
  conv_lhs => rw [squeeze]
  simp [ha, hd]

theorem squeeze_space_not (a d : Char) (ds : List Char)
    (ha : pySpace a = true) (hd : pySpace d = false) :
    squeeze (a :: d :: ds) = ' ' :: squeeze (d :: ds) := by
  conv_lhs => rw [squeeze]
  simp [ha, hd]

theorem squeeze_ne_nil (l : List Char) (h : l ≠ []) : squeeze l ≠ [] := by
  induction l with
  | nil => simp at h
  | cons a cs ih =>
      by_cases ha : pySpace a
      · cases cs with
        | nil => simp [squeeze_single_space a ha]
        | cons d ds =>
            by_cases hd : pySpace d
            · rw [squeeze_space_space a d ds ha hd]
              exact ih (by simp)
            · rw [squeeze_space_not a d ds ha (by simpa using hd)]
              simp
      · rw [squeeze_cons_not a cs (by simpa using ha)]
        simp

theorem mem_squeeze (l : List Char) (c : Char) (h : c ∈ squeeze l) :
    c ∈ l ∨ c = ' ' := by
  induction l with
  | nil => simp [squeeze] at h
  | cons a cs ih =>
      by_cases ha : pySpace a
      · cases cs with
        | nil =>
            rw [squeeze_single_space a ha] at h
            simp at h
            exact Or.inr h
        | cons d ds =>
            by_cases hd : pySpace d
            · rw [squeeze_space_space a d ds ha hd] at h
              rcases ih h with h' | h'
              · exact Or.inl (List.mem_cons_of_mem a h')
              · exact Or.inr h'
            · rw [squeeze_space_not a d ds ha (by simpa using hd)] at h
              rcases List.mem_cons.mp h with h' | h'
              · exact Or.inr h'
              · rcases ih h' with h'' | h''
                · exact Or.inl (List.mem_cons_of_mem a h'')
                · exact Or.inr h''
      · rw [squeeze_cons_not a cs (by simpa using ha)] at h
        rcases List.mem_cons.mp h with h' | h'
        · exact Or.inl (h' ▸ List.mem_cons_self a cs)
        · rcases ih h' with h'' | h''
          · exact Or.inl (List.mem_cons_of_mem a h'')
          · exact Or.inr h''

theorem space_mem_squeeze (l : List Char) (c : Char) (h : c ∈ squeeze l)
    (hc : pySpace c = true) : c = ' ' := by
  induction l with
  | nil => simp [squeeze] at h
  | cons a cs ih =>
      by_cases ha : pySpace a
      · cases cs with
        | nil =>
            rw [squeeze_single_space a ha] at h
            simpa using h
        | cons d ds =>
            by_cases hd : pySpace d
            · rw [squeeze_space_space a d ds ha hd] at h
              exact ih h
            · rw [squeeze_space_not a d ds ha (by simpa using hd)] at h
              rcases List.mem_cons.mp h with h' | h'
              · exact h'
              · exact ih h'
      · rw [squeeze_cons_not a cs (by simpa using ha)] at h
        rcases List.mem_cons.mp h with h' | h'
        · subst h'; rw [hc] at ha; exact absurd rfl ha
        · exact ih h'

theorem chain'_squeeze (l : List Char) :
    List.Chain' (fun a b => ¬(pySpace a = true ∧ pySpace b = true)) (squeeze l) := by
  induction l with
  | nil => simp [squeeze]
  | cons a cs ih =>
      by_cases ha : pySpace a
      · cases cs with
        | nil => simp [squeeze_single_space a ha]
        | cons d ds =>
            by_cases hd : pySpace d
            · rwa [squeeze_space_space a d ds ha hd]
            · have hd' : pySpace d = false := by simpa using hd
              rw [squeeze_space_not a d ds ha hd']
              rw [List.chain'_cons']
              refine ⟨?_, ih⟩
              intro y hy
              rw [squeeze_cons_not d ds hd'] at hy
              simp only [List.head?_cons, Option.mem_def, Option.some.injEq] at hy
              subst hy
              intro hcon
              rw [hd'] at hcon
              exact Bool.false_ne_true hcon.2
      · have ha' : pySpace a = false := by simpa using ha
        rw [squeeze_cons_not a cs ha']
        rw [List.chain'_cons']
        refine ⟨?_, ih⟩
        intro y _
        intro hcon
        rw [ha'] at hcon
        exact Bool.false_ne_true hcon.1

theorem squeeze_fixed (l : List Char)
    (hsp : ∀ c ∈ l, pySpace c = true → c = ' ')
    (hch : List.Chain' (fun a b => ¬(pySpace a = true ∧ pySpace b = true)) l) :
    squeeze l = l := by
  induction l with
  | nil => simp [squeeze]
  | cons a cs ih =>
      by_cases ha : pySpace a
      · have ha' : a = ' ' := hsp a (List.mem_cons_self a cs) ha
        cases cs with
        | nil => rw [squeeze_single_space a ha, ha']
        | cons d ds =>
            have hd : pySpace d = false := by
              rw [List.chain'_cons] at hch
              by_cases hdc : pySpace d
              · exact absurd ⟨ha, hdc⟩ hch.1
              · simpa using hdc
            rw [squeeze_space_not a d ds ha hd, ha']
            congr 1
            exact ih (fun c hc h => hsp c (List.mem_cons_of_mem a hc) h)
              (List.Chain'.tail hch)
      · rw [squeeze_cons_not a cs (by simpa using ha)]
        congr 1
        exact ih (fun c hc h => hsp c (List.mem_cons_of_mem a hc) h)
          (List.Chain'.tail hch)

theorem head?_squeeze (l : List Char)
    (h : ∀ c, l.head? = some c → pySpace c = false) :
    ∀ c, (squeeze l).head? = some c → pySpace c = false := by
  cases l with
  | nil => simp [squeeze]
  | cons a cs =>
      have ha : pySpace a = false := h a rfl
      rw [squeeze_cons_not a cs ha]
      intro c hc
      simp only [List.head?_cons, Option.some.injEq] at hc
      subst hc
      exact ha

theorem getLast?_cons_ne (a : Char) (l : List Char) (h : l ≠ []) :
    (a :: l).getLast? = l.getLast? := by
  cases l with
  | nil => exact absurd rfl h
  | cons b bs => exact List.getLast?_cons_cons

theorem getLast?_squeeze (l : List Char)
    (h : ∀ c, l.getLast? = some c → pySpace c = false) :
    ∀ c, (squeeze l).getLast? = some c → pySpace c = false := by
  induction l with
  | nil => simp [squeeze]
  | cons a cs ih =>
      cases cs with
      | nil =>
          have ha : pySpace a = false := h a rfl
          rw [squeeze_cons_not a [] ha]
          intro c hc
          simp only [squeeze, List.getLast?_singleton, Option.some.injEq] at hc
          subst hc
          exact ha
      | cons d ds =>
          have htail : ∀ c, (d :: ds).getLast? = some c → pySpace c = false := by
            intro c hc
            apply h
            rw [List.getLast?_cons_cons]
            exact hc
          have hne : squeeze (d :: ds) ≠ [] := squeeze_ne_nil _ (by simp)
          by_cases ha : pySpace a
          · by_cases hd : pySpace d
            · rw [squeeze_space_space a d ds ha hd]
              exact ih htail
            · rw [squeeze_space_not a d ds ha (by simpa using hd)]
              intro c hc
              rw [getLast?_cons_ne _ _ hne] at hc
              exact ih htail c hc
          · rw [squeeze_cons_not a (d :: ds) (by simpa using ha)]
            intro c hc
            rw [getLast?_cons_ne _ _ hne] at hc
            exact ih htail c hc

theorem head?_dropWhile (p : Char → Bool) (l : List Char) :
    ∀ c, (l.dropWhile p).head? = some c → p c = false := by
  induction l with
  | nil => simp
  | cons a cs ih =>
      by_cases ha : p a
      · simpa [List.dropWhile_cons, ha] using ih
      · intro c hc
        simp only [List.dropWhile_cons, ha, Bool.false_eq_true, if_false,
          List.head?_cons, Option.some.injEq] at hc
        subst hc
        simpa using ha

theorem dropWhile_eq_self_of_head (p : Char → Bool) (l : List Char)
    (h : ∀ c, l.head? = some c → p c = false) : l.dropWhile p = l := by
  cases l with
  | nil => rfl
  | cons a cs => simp [List.dropWhile_cons, h a rfl]

theorem head?_stripChars (l : List Char) :
    ∀ c, (stripChars l).head? = some c → pySpace c = false := by
  intro c hc
  unfold stripChars at hc
  rw [List.head?_reverse] at hc
  have hsuff : (l.dropWhile pySpace).reverse.dropWhile pySpace <:+
      (l.dropWhile pySpace).reverse := List.dropWhile_suffix pySpace
  obtain ⟨u, hu⟩ := hsuff
  have hlast : (l.dropWhile pySpace).reverse.getLast? = some c := by
    rw [← hu, List.getLast?_append, hc]
    rfl
  rw [List.getLast?_reverse] at hlast
  exact head?_dropWhile pySpace l c hlast

theorem getLast?_stripChars (l : List Char) :
    ∀ c, (stripChars l).getLast? = some c → pySpace c = false := by
  intro c hc
  unfold stripChars at hc
  rw [List.getLast?_reverse] at hc
  exact head?_dropWhile pySpace _ c hc

theorem stripChars_fixed (l : List Char)
    (hh : ∀ c, l.head? = some c → pySpace c = false)
    (hl : ∀ c, l.getLast? = some c → pySpace c = false) :
    stripChars l = l := by
  unfold stripChars
  rw [dropWhile_eq_self_of_head pySpace l hh]
  rw [dropWhile_eq_self_of_head pySpace l.reverse
    (by intro c hc; rw [List.head?_reverse] at hc; exact hl c hc)]
  exact List.reverse_reverse l

theorem norm_idem (l : List Char) :
    squeeze (stripChars (squeeze (stripChars l))) = squeeze (stripChars l) := by
  have hh := head?_squeeze (stripChars l) (head?_stripChars l)
  have hl := getLast?_squeeze (stripChars l) (getLast?_stripChars l)
  rw [stripChars_fixed _ hh hl]
  exact squeeze_fixed _ (space_mem_squeeze (stripChars l)) (chain'_squeeze _)

/-- Every character of a matched pattern occurs in the matched text. -/
theorem mem_of_isPrefixOf :
    ∀ (pat l : List Char), pat.isPrefixOf l = true → ∀ x ∈ pat, x ∈ l := by
  intro pat
  induction pat with
  | nil => intro l _ x hx; simp at hx
  | cons a ps ih =>
      intro l hp x hx
      cases l with
      | nil => simp [List.isPrefixOf] at hp
      | cons b bs =>
          simp only [List.isPrefixOf, Bool.and_eq_true, beq_iff_eq] at hp
          rcases List.mem_cons.mp hx with hx | hx
          · subst hx
            exact hp.1 ▸ List.mem_cons_self b bs
          · exact List.mem_cons_of_mem b (ih bs hp.2 x hx)

theorem replaceGo_id (pat rep : List Char)
    (hpat : ∃ p ∈ pat, accentChar p = true) :
    ∀ (n : Nat) (l : List Char), (∀ c ∈ l, accentChar c = false) →
      replaceGo pat rep n l = l := by
  intro n
  induction n with
  | zero => intro l _; rfl
  | succ m ih =>
      intro l hl
      cases l with
      | nil => rfl
      | cons a cs =>
          have hcond : (pat ≠ [] && pat.isPrefixOf (a :: cs)) = false := by
            by_cases hp : pat.isPrefixOf (a :: cs)
            · obtain ⟨q, hq, hacc⟩ := hpat
              have hqm : q ∈ a :: cs := mem_of_isPrefixOf pat (a :: cs) hp q hq
              rw [hl q hqm] at hacc
              exact absurd hacc (by simp)
            · simp [hp]
          simp only [replaceGo, hcond, Bool.false_eq_true, if_false]
          congr 1
          exact ih cs (fun c hc => hl c (List.mem_cons_of_mem a hc))

/-- A replacement whose pattern contains an accented character fixes any
accent-free text. -/
theorem replaceChars_id (pat rep l : List Char)
    (hpat : ∃ p ∈ pat, accentChar p = true)
    (hl : ∀ c ∈ l, accentChar c = false) : replaceChars pat rep l = l :=
  replaceGo_id pat rep hpat _ l hl

/-- The whole typo table fixes any accent-free text. -/
theorem applyReplacements_id (l : List Char)
    (hl : ∀ c ∈ l, accentChar c = false) : applyReplacements l = l := by
  simp only [applyReplacements, ocrReplacements, List.foldl_cons, List.foldl_nil]
  rw [replaceChars_id "chícken".data "chicken".data l ⟨'í', by decide, by decide⟩ hl]
  rw [replaceChars_id "chíck".data "chicken".data l ⟨'í', by decide, by decide⟩ hl]
  rw [replaceChars_id "beéf".data "beef".data l ⟨'é', by decide, by decide⟩ hl]
  rw [replaceChars_id "pórk".data "pork".data l ⟨'ó', by decide, by decide⟩ hl]
  rw [replaceChars_id "tómato".data "tomato".data l ⟨'ó', by decide, by decide⟩ hl]
  rw [replaceChars_id "oníon".data "onion".data l ⟨'í', by decide, by decide⟩ hl]
  rw [replaceChars_id "chése".data "cheese".data l ⟨'é', by decide, by decide⟩ hl]
  rw [replaceChars_id "chéese".data "cheese".data l ⟨'é', by decide, by decide⟩ hl]

/-- C9 counterexample: `clean` is not idempotent. Filtering the disallowed
`£` out of `"a £ b"` leaves two adjacent spaces, which only a second
application collapses: `clean "a £ b" = "a  b"` but
`clean (clean "a £ b") = "a b"`. -/
theorem clean_ocr_text_not_idempotent :
    TextProcessor.clean_ocr_text (TextProcessor.clean_ocr_text "a £ b") ≠
      TextProcessor.clean_ocr_text "a £ b" ∧
    TextProcessor.clean_ocr_text "a £ b" = "a  b" ∧
    TextProcessor.clean_ocr_text "a  b" = "a b" := by
  decide

/-- C9 amended: `clean` is idempotent on texts all of whose characters are in
the filter whitelist and none of which is an accented typo character — the
failure mode is the character filter creating new whitespace runs (and typo
replacement output recreating typo patterns). -/
theorem clean_ocr_text_idem_on_plain (x : String)
    (hall : ∀ c ∈ x.data, allowedChar c = true)
    (hacc : ∀ c ∈ x.data, accentChar c = false) :
    TextProcessor.clean_ocr_text (TextProcessor.clean_ocr_text x) =
      TextProcessor.clean_ocr_text x := by
  have htmem : ∀ c ∈ squeeze (stripChars x.data), c ∈ x.data ∨ c = ' ' := by
    intro c hc
    rcases mem_squeeze _ _ hc with h | h
    · exact Or.inl ((stripChars_sublist _).mem h)
    · exact Or.inr h
  have htall : ∀ c ∈ squeeze (stripChars x.data), allowedChar c = true := by
    intro c hc
    rcases htmem c hc with h | h
    · exact hall c h
    · subst h; decide
  have htacc : ∀ c ∈ squeeze (stripChars x.data), accentChar c = false := by
    intro c hc
    rcases htmem c hc with h | h
    · exact hacc c h
    · subst h; decide
  have hclean1 : TextProcessor.clean_ocr_text x = ⟨squeeze (stripChars x.data)⟩ := by
    unfold TextProcessor.clean_ocr_text
    rw [List.filter_eq_self.mpr htall, applyReplacements_id _ htacc]
  rw [hclean1]
  unfold TextProcessor.clean_ocr_text
  show String.mk (applyReplacements (List.filter allowedChar
      (squeeze (stripChars (squeeze (stripChars x.data)))))) = _
  rw [norm_idem x.data, List.filter_eq_self.mpr htall,
    applyReplacements_id _ htacc]

/-- C9 amended, witness: a concrete whitelisted, accent-free text on which
`clean` is idempotent. -/
theorem clean_ocr_text_idem_on_plain_witness :
    TextProcessor.clean_ocr_text (TextProcessor.clean_ocr_text "Chicken  Rice") =
      TextProcessor.clean_ocr_text "Chicken  Rice" :=
  clean_ocr_text_idem_on_plain "Chicken  Rice" (by decide) (by decide)
